import Mathlib

/-!
Verification of `stylish.go` (package `stylish`)

A shallow embedding of the console formatter of `src/stylish.go`, and theorems
about it.

Modelling conventions:

* A Go `string` is embedded as a Lean `String`, that is, as a Go string that
  holds valid UTF-8.  `len` is the number of bytes of the UTF-8 encoding.
* A Go `int` is embedded as `Int`.  The only integer arithmetic of the package
  is `70 - len(..)`, halved, which stays far inside the 64-bit range, so no
  wrap-around is modelled.  Go's `/` and `%` truncate toward zero: they are
  `Int.tdiv` and `Int.tmod`.
* A run-time panic is an `Except.error`.  The only panic the package can raise
  is the one of `strings.Repeat` on a negative count.
* `fmt.Sprintf` is only used with `%v` verbs on strings, where it substitutes
  the string: it is embedded as concatenation.
* The Unicode case tables of the Go standard library and the function
  `wordwrap.WrapString` of `github.com/mitchellh/go-wordwrap` are not part of
  the package; they are parameters (`caseTable`, `WrapString`).
  `Wordwrap.WrapString` is a model of the latter, written from its description,
  for the statements that are about the wrap itself.
-/

namespace Stylish

/-! ## Go standard library -/

/-- Value carried by a Go panic. -/
inductive Panic where
  /-- The panic of `strings.Repeat`: "strings: negative Repeat count". -/
  | negativeRepeatCount
  deriving DecidableEq, Repr

/-- Go builtin `len` on a string: the number of bytes. -/
def len (s : String) : Int := (s.utf8ByteSize : Nat)

/-- Go `unicode.ToUpper`: ASCII runes are handled inline (`'a'..'z'` move down
by `'a' - 'A'`), every other rune is looked up in the case tables. -/
def unicodeToUpper (caseTable : Char → Char) (r : Char) : Char :=
  if r.toNat ≤ 0x7F then
    if 'a'.toNat ≤ r.toNat ∧ r.toNat ≤ 'z'.toNat then Char.ofNat (r.toNat - ('a'.toNat - 'A'.toNat))
    else r
  else caseTable r

/-- Go `strings.ToUpper`: `unicode.ToUpper` mapped over the runes of the string
(the ASCII fast path of the library computes the same string). -/
def ToUpper (caseTable : Char → Char) (s : String) : String :=
  String.mk (s.data.map (unicodeToUpper caseTable))

/-- Go `strings.Repeat`: `count` copies of `s`; panics when `count` is negative. -/
def Repeat (s : String) (count : Int) : Except Panic String :=
  if count < 0 then Except.error Panic.negativeRepeatCount
  else Except.ok (String.join (List.replicate count.toNat s))

/-! ## The package -/

/-- The function `Header` of `stylish.go`. -/
def Header (caseTable : Char → Char) (header : String) : Except Panic String := do
  let maxLen : Int := 70
  let subLen : Int := len header
  let leftLen : Int := (maxLen - subLen).tdiv 2 + (maxLen - subLen).tmod 2
  let rightLen : Int := (maxLen - subLen).tdiv 2
  let left ← Repeat ":" leftLen
  let upper := ToUpper caseTable header
  let right ← Repeat ":" rightLen
  return "\n" ++ (left ++ " " ++ upper ++ " " ++ right) ++ "\n"

/-- The function `ProcessStart` of `stylish.go`. -/
def ProcessStart (caseTable : Char → Char) (process : String) : Except Panic String := do
  let maxLen : Int := 70
  let subLen : Int := len (process ++ "=>")
  let upper := ToUpper caseTable process
  let fill ← Repeat ":" (maxLen - subLen)
  return "\n" ++ (upper ++ " " ++ fill ++ " =>") ++ "\n"

/-- The function `ProcessEnd` of `stylish.go`. -/
def ProcessEnd (caseTable : Char → Char) (process : String) : Except Panic String := do
  let maxLen : Int := 70
  let subLen : Int := len ("<=" ++ process ++ "[√]")
  let fill ← Repeat ":" (maxLen - subLen)
  let upper := ToUpper caseTable process
  return "\n" ++ ("<= " ++ fill ++ " " ++ upper ++ " [√]") ++ "\n"

/-- The function `SubTask` of `stylish.go`. -/
def SubTask (caseTable : Char → Char) (task : String) : String :=
  "\n::::::::: " ++ ToUpper caseTable task ++ "\n"

/-- The function `SubTaskSuccess` of `stylish.go`. -/
def SubTaskSuccess : String := "\n<<<<<<<<< [√] SUCCESS\n"

/-- The function `SubTaskFail` of `stylish.go`. -/
def SubTaskFail : String := "\n<<<<<<<<< [!] FAILED\n"

/-- The dynamic argument `v interface{}` of `Bullet`: a string or a `[]string`. -/
inductive BulletArg where
  | text (s : String)
  | slice (t : List String)
  deriving DecidableEq, Repr

/-- The rendering of `%v`: a string is itself, a slice of strings is its
elements separated by blanks, in square brackets. -/
def formatV : BulletArg → String
  | BulletArg.text s => s
  | BulletArg.slice t => "[" ++ " ".intercalate t ++ "]"

/-- The loop `for i := range t { return fmt.Sprintf("+> %v\n", t[i]) }` of
`Bullet`: `some r` when the loop returns `r`, `none` when it runs to its end. -/
def bulletLoop : List String → Option String
  | [] => none
  | x :: _ => some ("+> " ++ x ++ "\n")

/-- The function `Bullet` of `stylish.go`. -/
def Bullet (v : BulletArg) : String :=
  match v with
  | BulletArg.slice t =>
    match bulletLoop t with
    | some r => r
    | none => "+> " ++ formatV v ++ "\n"
  | _ => "+> " ++ formatV v ++ "\n"

/-- The function `Warning` of `stylish.go`. -/
def Warning (WrapString : String → Nat → String) (body : String) : String :=
  "\n-----------------------------  WARNING  -----------------------------\n"
    ++ WrapString body 70 ++ "\n"

/-- The function `Error` of `stylish.go`. -/
def Error (caseTable : Char → Char) (WrapString : String → Nat → String)
    (heading body : String) : String :=
  "\n! " ++ ToUpper caseTable heading ++ " !\n\n" ++ WrapString body 70 ++ "\n"

/-! ## The word-wrap dependency -/

/-- Go `unicode.IsSpace`: the Latin-1 spaces `'\t'`, `'\n'`, `'\v'`, `'\f'`,
`'\r'`, `' '`, U+0085, U+00A0, and beyond Latin-1 the code points with the
property `White_Space`. -/
def unicodeIsSpace (r : Char) : Bool :=
  let n := r.toNat
  if n ≤ 0xFF then
    n == 0x09 || n == 0x0A || n == 0x0B || n == 0x0C || n == 0x0D || n == 0x20
      || n == 0x85 || n == 0xA0
  else
    n == 0x1680 || (0x2000 ≤ n && n ≤ 0x200A) || n == 0x2028 || n == 0x2029
      || n == 0x202F || n == 0x205F || n == 0x3000

/-- The state of the word-wrap while it reads the text: the output so far, the
number of columns used on the current output line, the pending whitespace and
the pending word. -/
structure WrapState where
  buf : List Char
  current : Nat
  spaceBuf : List Char
  wordBuf : List Char
  deriving DecidableEq, Repr

/-- Modelled from the spec: one step of `wordwrap.WrapString`, on one character
of the text.  An existing line break is kept and starts a new line; whitespace
ends the pending word, which is accumulated onto the line; a character of a
word that would make the line exceed the width `lim` breaks the line before the
word, unless the word alone is as wide as the line, since a word is never split. -/
def wrapStep (lim : Nat) (st : WrapState) (char : Char) : WrapState :=
  if char = '\n' then
    if st.wordBuf = [] then
      if st.current + st.spaceBuf.length > lim then
        { buf := st.buf ++ ['\n'], current := 0, spaceBuf := [], wordBuf := [] }
      else
        { buf := st.buf ++ st.spaceBuf ++ ['\n'], current := 0, spaceBuf := [], wordBuf := [] }
    else
      { buf := st.buf ++ st.spaceBuf ++ st.wordBuf ++ ['\n'], current := 0, spaceBuf := [],
        wordBuf := [] }
  else if unicodeIsSpace char then
    if st.spaceBuf = [] ∨ st.wordBuf ≠ [] then
      { buf := st.buf ++ st.spaceBuf ++ st.wordBuf,
        current := st.current + st.spaceBuf.length + st.wordBuf.length,
        spaceBuf := [char], wordBuf := [] }
    else
      { st with spaceBuf := st.spaceBuf ++ [char] }
  else
    if st.current + (st.wordBuf.length + 1) + st.spaceBuf.length > lim
        ∧ st.wordBuf.length + 1 < lim then
      { buf := st.buf ++ ['\n'], current := 0, spaceBuf := [], wordBuf := st.wordBuf ++ [char] }
    else
      { st with wordBuf := st.wordBuf ++ [char] }

/-- Modelled from the spec: the end of `wordwrap.WrapString`, which writes out
the pending whitespace and the pending word; whitespace alone is dropped when it
does not fit the line. -/
def wrapFinish (lim : Nat) (st : WrapState) : List Char :=
  if st.wordBuf = [] then
    if st.current + st.spaceBuf.length ≤ lim then st.buf ++ st.spaceBuf else st.buf
  else st.buf ++ st.spaceBuf ++ st.wordBuf

/-- Modelled from the spec: `wordwrap.WrapString` of the package
`github.com/mitchellh/go-wordwrap`, which `stylish.go` imports and which is not
under `src/`.  The spec describes it as the standard greedy word-wrap: words are
accumulated onto a line until the next word would exceed the width, then the
line is broken; existing line breaks are preserved, lines are broken at
whitespace only, and a word is never split nor truncated, so that a word wider
than the line stays on one overlength line.  Widths are counted in characters. -/
def Wordwrap.WrapString (s : String) (lim : Nat) : String :=
  String.mk (wrapFinish lim
    (s.data.foldl (wrapStep lim) { buf := [], current := 0, spaceBuf := [], wordBuf := [] }))

/-! ## Vocabulary of the specification -/

/-- A run of `n` copies of the character `c`. -/
def run (c : Char) (n : Nat) : String := String.mk (List.replicate n c)

/-- The list `s` begins with the list `p`. -/
def beginsWith : List Char → List Char → Bool
  | _, [] => true
  | [], _ :: _ => false
  | a :: s, b :: p => a == b && beginsWith s p

/-- The string `s` begins with the string `p` (Go `strings.HasPrefix`). -/
def startsWith (s p : String) : Bool := beginsWith s.data p.data

/-- The string `s` ends with the string `p` (Go `strings.HasSuffix`). -/
def endsWith (s p : String) : Bool := beginsWith s.data.reverse p.data.reverse

/-- The positions of `s` at which an occurrence of `pat` starts. -/
def positions (pat s : List Char) : List Nat :=
  (List.range (s.length + 1)).filter (fun i => beginsWith (s.drop i) pat)

/-- The number of occurrences of `pat` as a substring of `s`. -/
def occurrences (pat s : String) : Nat := (positions pat.data s.data).length

/-- The characters that `Header` puts around the text. -/
def isFrame (c : Char) : Bool := c == ':' || c == ' ' || c == '\n'

/-! ## Concrete inputs and outputs -/

/-- A text of 71 bytes. -/
def text71 : String :=
  "aaaaaaaaaaaaaaaaaaaaaaaaaaaaaaaaaaaaaaaaaaaaaaaaaaaaaaaaaaaaaaaaaaaaaaa"

/-- A text of 69 bytes. -/
def text69 : String :=
  "aaaaaaaaaaaaaaaaaaaaaaaaaaaaaaaaaaaaaaaaaaaaaaaaaaaaaaaaaaaaaaaaaaaaa"

/-- A text of 64 bytes. -/
def text64 : String :=
  "aaaaaaaaaaaaaaaaaaaaaaaaaaaaaaaaaaaaaaaaaaaaaaaaaaaaaaaaaaaaaaaa"

/-- One line `"+> <item>"` per element of the slice, in the order of the slice:
the output that the comment on `Bullet` documents. -/
def bulletLines (t : List String) : String :=
  String.join (t.map (fun item => "+> " ++ item ++ "\n"))

/-- The string that `ProcessStart "i am a process"` returns. -/
def processStartExample : String :=
  "\nI AM A PROCESS :::::::::::::::::::::::::::::::::::::::::::::::::::::: =>\n"

/-- The string that `Header ":"` returns. -/
def headerColon : String :=
  "\n::::::::::::::::::::::::::::::::::: : ::::::::::::::::::::::::::::::::::\n"

/-- The line that the comment on `Header` documents as the output of
`Header "i am a header"`. -/
def headerDocumented : String :=
  ":::::::::::::::::::::::::: I AM A HEADER :::::::::::::::::::::::::"

/-- The line that the comment on `ProcessEnd` documents as the output of
`ProcessEnd "i am a process"`. -/
def processEndDocumented : String :=
  "<= :::::::::::::::::::::::::::::::::::::::::::: END I AM A PROCESS"

/-- The banner line of `Warning`. -/
def warningBanner : String :=
  run '-' 29 ++ "  " ++ "WARNING" ++ "  " ++ run '-' 29

/-! ## Auxiliary lemmas -/

theorem beginsWith_append (p t : List Char) : beginsWith (p ++ t) p = true := by
  induction p with
  | nil => cases t <;> rfl
  | cons a p ih => simp [beginsWith, ih]

theorem beginsWith_iff (s p : List Char) : beginsWith s p = true ↔ ∃ t, s = p ++ t := by
  constructor
  · intro h
    induction p generalizing s with
    | nil => exact ⟨s, rfl⟩
    | cons b p ih =>
      cases s with
      | nil => simp [beginsWith] at h
      | cons a s =>
        simp only [beginsWith, Bool.and_eq_true, beq_iff_eq] at h
        obtain ⟨t, ht⟩ := ih s h.2
        exact ⟨t, by rw [h.1, ht]; rfl⟩
  · rintro ⟨t, rfl⟩
    exact beginsWith_append p t

theorem mem_positions (pat s : List Char) (i : Nat) :
    i ∈ positions pat s ↔ i ≤ s.length ∧ ∃ t, s.drop i = pat ++ t := by
  unfold positions
  simp only [List.mem_filter, List.mem_range, beginsWith_iff, Nat.lt_succ_iff]

theorem takeWhile_append_of_exists (p : Char → Bool) (U Y : List Char)
    (h : ∃ c ∈ U, p c = false) : (U ++ Y).takeWhile p = U.takeWhile p := by
  induction U with
  | nil => simp at h
  | cons a U ih =>
    by_cases ha : p a = true
    · rw [List.cons_append, List.takeWhile_cons_of_pos ha, List.takeWhile_cons_of_pos ha, ih]
      obtain ⟨c, hc, hpc⟩ := h
      rcases List.mem_cons.1 hc with rfl | hc
      · rw [ha] at hpc; cases hpc
      · exact ⟨c, hc, hpc⟩
    · rw [List.cons_append, List.takeWhile_cons_of_neg ha, List.takeWhile_cons_of_neg ha]

/-- An occurrence of `U` in `P ++ U ++ S` starts at the end of `P`, when `P` and
`S` hold frame characters only and `U` holds another character. -/
theorem length_eq_of_append_eq (X Y P S U : List Char)
    (hP : ∀ c ∈ P, isFrame c = true) (hS : ∀ c ∈ S, isFrame c = true)
    (hU : ∃ c ∈ U, isFrame c = false) (e : X ++ (U ++ Y) = P ++ (U ++ S)) :
    X.length = P.length := by
  have hn : List.countP (fun c => !isFrame c) (X ++ (U ++ Y))
      = List.countP (fun c => !isFrame c) (P ++ (U ++ S)) := by rw [e]
  have hP0 : List.countP (fun c => !isFrame c) P = 0 := by
    rw [List.countP_eq_zero]; intro c hc; simp [hP c hc]
  have hS0 : List.countP (fun c => !isFrame c) S = 0 := by
    rw [List.countP_eq_zero]; intro c hc; simp [hS c hc]
  simp only [List.countP_append, hP0, hS0] at hn
  have hX0 : List.countP (fun c => !isFrame c) X = 0 := by omega
  have hX : ∀ c ∈ X, isFrame c = true := by
    rw [List.countP_eq_zero] at hX0
    intro c hc
    simpa using hX0 c hc
  have hl : (X ++ (U ++ Y)).takeWhile isFrame = (P ++ (U ++ S)).takeWhile isFrame := by rw [e]
  rw [List.takeWhile_append_of_pos hX, List.takeWhile_append_of_pos hP,
    takeWhile_append_of_exists isFrame U Y hU, takeWhile_append_of_exists isFrame U S hU] at hl
  have := congrArg List.length hl
  simp only [List.length_append] at this
  omega

theorem length_positions_pos (P U S : List Char) : 1 ≤ (positions U (P ++ (U ++ S))).length := by
  have hm : P.length ∈ positions U (P ++ (U ++ S)) := by
    rw [mem_positions]
    refine ⟨by simp, S, ?_⟩
    simp
  exact List.length_pos_of_mem hm

theorem length_positions_eq_one (P U S : List Char)
    (hP : ∀ c ∈ P, isFrame c = true) (hS : ∀ c ∈ S, isFrame c = true)
    (hU : ∃ c ∈ U, isFrame c = false) : (positions U (P ++ (U ++ S))).length = 1 := by
  unfold positions
  rw [← List.countP_eq_length_filter]
  have hc : List.countP (fun i => beginsWith ((P ++ (U ++ S)).drop i) U)
        (List.range ((P ++ (U ++ S)).length + 1))
      = List.countP (fun i => i == P.length) (List.range ((P ++ (U ++ S)).length + 1)) := by
    apply List.countP_congr
    intro i hi
    rw [List.mem_range] at hi
    rw [beginsWith_iff, beq_iff_eq]
    constructor
    · rintro ⟨Y, hY⟩
      have e : (P ++ (U ++ S)).take i ++ (U ++ Y) = P ++ (U ++ S) := by
        rw [← hY, List.take_append_drop]
      have := length_eq_of_append_eq _ Y P S U hP hS hU e
      rw [List.length_take] at this
      omega
    · rintro rfl
      exact ⟨S, by simp⟩
  rw [hc]
  have hk : P.length ∈ List.range ((P ++ (U ++ S)).length + 1) := by
    rw [List.mem_range, List.length_append]; omega
  exact List.count_eq_one_of_mem (List.nodup_range _) hk

theorem startsWith_append (p t : String) : startsWith (p ++ t) p = true :=
  beginsWith_append p.data t.data

theorem endsWith_append (t p : String) : endsWith (t ++ p) p = true := by
  unfold endsWith
  rw [String.data_append, List.reverse_append]
  exact beginsWith_append _ _

theorem join_replicate_singleton (c : Char) (n : Nat) :
    String.join (List.replicate n (String.singleton c)) = run c n := by
  apply String.ext
  rw [String.data_join]
  induction n with
  | zero => rfl
  | succ n ih =>
    rw [List.replicate_succ, List.map_cons, List.flatten_cons, ih]
    rfl

theorem Repeat_colon_of_nonneg (count : Int) (h : 0 ≤ count) :
    Repeat ":" count = Except.ok (run ':' count.toNat) := by
  unfold Repeat
  rw [if_neg (by omega)]
  exact congrArg Except.ok (join_replicate_singleton ':' count.toNat)

theorem Repeat_of_neg (s : String) (count : Int) (h : count < 0) :
    Repeat s count = Except.error Panic.negativeRepeatCount := by
  unfold Repeat
  rw [if_pos h]

theorem floor_half (n : Int) : ⌊(n : ℚ) / 2⌋ = n / 2 := by
  have h := Rat.floor_intCast_div_natCast n 2
  simpa using h

theorem ceil_half (n : Int) : ⌈(n : ℚ) / 2⌉ = (n + 1) / 2 := by
  have h := Rat.floor_intCast_div_natCast (-n) 2
  have e : ⌈(n : ℚ) / 2⌉ = -⌊((-n : Int) : ℚ) / ((2 : Nat) : ℚ)⌋ := by
    rw [← Int.ceil_neg]
    congr 1
    push_cast
    ring
  rw [e, h]
  omega

theorem tdiv_two_of_nonneg (n : Int) (h : 0 ≤ n) : n.tdiv 2 = n / 2 :=
  Int.tdiv_eq_ediv h (by decide)

theorem tmod_two_of_nonneg (n : Int) (h : 0 ≤ n) : n.tmod 2 = n % 2 :=
  Int.tmod_eq_emod h (by decide)

theorem tdiv_add_tmod_two_neg (n : Int) (h : n < 0) : n.tdiv 2 + n.tmod 2 < 0 := by
  have h1 := Int.tdiv_add_tmod n 2
  have h2 : n.tdiv 2 = -((-n).tdiv 2) := by rw [Int.neg_tdiv, Int.neg_neg]
  have h3 := tdiv_two_of_nonneg (-n) (by omega)
  omega

theorem len_append (a b : String) : len (a ++ b) = len a + len b := by
  unfold len
  rw [← Int.ofNat_add]
  congr 1
  show String.utf8ByteSize ⟨a.data ++ b.data⟩ = _
  rw [String.utf8ByteSize_mk, String.utf8Len_append]
  rfl

theorem Header_ok (caseTable : Char → Char) (T : String) (h : len T ≤ 70) :
    Header caseTable T = Except.ok
      ("\n" ++ (run ':' ((70 - len T + 1) / 2).toNat ++ " " ++ ToUpper caseTable T ++ " "
        ++ run ':' ((70 - len T) / 2).toNat) ++ "\n") := by
  have hd := tdiv_two_of_nonneg (70 - len T) (by omega)
  have hm := tmod_two_of_nonneg (70 - len T) (by omega)
  have hl : (70 - len T).tdiv 2 + (70 - len T).tmod 2 = (70 - len T + 1) / 2 := by
    rw [hd, hm]; omega
  simp only [Header]
  rw [hl, hd, Repeat_colon_of_nonneg _ (by omega), Repeat_colon_of_nonneg _ (by omega)]
  rfl

theorem ProcessStart_ok (caseTable : Char → Char) (T : String) (h : len T ≤ 68) :
    ProcessStart caseTable T = Except.ok
      ("\n" ++ (ToUpper caseTable T ++ " " ++ run ':' (70 - len (T ++ "=>")).toNat ++ " =>")
        ++ "\n") := by
  have e : len (T ++ "=>") = len T + 2 := by rw [len_append]; rfl
  simp only [ProcessStart]
  rw [Repeat_colon_of_nonneg _ (by omega)]
  rfl

theorem ProcessStart_panics (caseTable : Char → Char) (T : String) (h : 68 < len T) :
    ProcessStart caseTable T = Except.error Panic.negativeRepeatCount := by
  have e : len (T ++ "=>") = len T + 2 := by rw [len_append]; rfl
  simp only [ProcessStart]
  rw [Repeat_of_neg _ _ (by omega)]
  rfl

theorem len_reserved_end (T : String) : len ("<=" ++ T ++ "[√]") = len T + 7 := by
  rw [len_append, len_append]
  have e1 : len "<=" = 2 := by decide
  have e2 : len "[√]" = 5 := by decide
  omega

theorem ProcessEnd_ok (caseTable : Char → Char) (T : String)
    (h : 0 ≤ 70 - len ("<=" ++ T ++ "[√]")) :
    ProcessEnd caseTable T = Except.ok
      ("\n" ++ ("<= " ++ run ':' (70 - len ("<=" ++ T ++ "[√]")).toNat ++ " "
        ++ ToUpper caseTable T ++ " [√]") ++ "\n") := by
  simp only [ProcessEnd]
  rw [Repeat_colon_of_nonneg _ h]
  rfl

theorem ProcessEnd_panics (caseTable : Char → Char) (T : String) (h : 63 < len T) :
    ProcessEnd caseTable T = Except.error Panic.negativeRepeatCount := by
  have e := len_reserved_end T
  simp only [ProcessEnd]
  rw [Repeat_of_neg _ _ (by omega)]
  rfl

/-! ## Header -/

/-- Claim C1: for a text of at most 70 bytes, `Header` returns a newline, a run
of `ceil((70-L)/2)` colons, a blank, the upper-cased text, a blank, a run of
`floor((70-L)/2)` colons and a newline; the two runs total `70 - L` colons and
the left run is the longer one by the remainder of `70 - L` by two. -/
theorem Header_of_len_le (caseTable : Char → Char) (T : String) (h : len T ≤ 70) :
    Header caseTable T = Except.ok
        ("\n" ++ (run ':' ⌈((70 : ℚ) - len T) / 2⌉.toNat ++ " " ++ ToUpper caseTable T ++ " "
          ++ run ':' ⌊((70 : ℚ) - len T) / 2⌋.toNat) ++ "\n")
      ∧ ⌈((70 : ℚ) - len T) / 2⌉ + ⌊((70 : ℚ) - len T) / 2⌋ = 70 - len T
      ∧ ⌈((70 : ℚ) - len T) / 2⌉ - ⌊((70 : ℚ) - len T) / 2⌋ = (70 - len T) % 2
      ∧ 0 ≤ ⌊((70 : ℚ) - len T) / 2⌋ := by
  have hc : ((70 : ℚ) - len T) = ((70 - len T : Int) : ℚ) := by push_cast; ring
  have hceil := ceil_half (70 - len T)
  have hfloor := floor_half (70 - len T)
  rw [← hc] at hceil hfloor
  have hd := tdiv_two_of_nonneg (70 - len T) (by omega)
  have hm := tmod_two_of_nonneg (70 - len T) (by omega)
  refine ⟨?_, by omega, by omega, by omega⟩
  have hl : (70 - len T).tdiv 2 + (70 - len T).tmod 2 = ⌈((70 : ℚ) - len T) / 2⌉ := by
    rw [hd, hm, hceil]; omega
  have hr : (70 - len T).tdiv 2 = ⌊((70 : ℚ) - len T) / 2⌋ := by
    rw [hd, hfloor]
  simp only [Header]
  rw [hl, hr, Repeat_colon_of_nonneg _ (by omega), Repeat_colon_of_nonneg _ (by omega)]
  rfl

/-- Witness of claim C1: `Header "i am a header"` has 29 colons on the left and
28 on the right. -/
theorem Header_of_len_le_witness :
    len "i am a header" ≤ 70 ∧
      Header id "i am a header"
        = Except.ok ("\n" ++ run ':' 29 ++ " I AM A HEADER " ++ run ':' 28 ++ "\n") ∧
      ⌈((70 : ℚ) - len "i am a header") / 2⌉ = 29 ∧
      ⌊((70 : ℚ) - len "i am a header") / 2⌋ = 28 := by
  have h := Header_of_len_le id "i am a header" (by decide)
  have e : len "i am a header" = 13 := by decide
  refine ⟨by decide, rfl, by omega, by omega⟩

/-- Counterexample to claim C2: on a text of 71 bytes `Header` does not return
a newline, a blank, the upper-cased text, a blank and a newline; the left fill
count is `-1` and `strings.Repeat` panics. -/
theorem Header_text71_panics :
    len text71 = 71 ∧
      Header id text71 ≠ Except.ok ("\n" ++ (" " ++ ToUpper id text71 ++ " ") ++ "\n") ∧
      Header id text71 = Except.error Panic.negativeRepeatCount := by
  refine ⟨by decide, ?_, rfl⟩
  intro h
  have e : Header id text71 = Except.error Panic.negativeRepeatCount := rfl
  rw [e] at h
  cases h

/-- Claim C2, amended: for a text of more than 70 bytes `Header` fails; the left
fill count is negative and `strings.Repeat` panics on it, so no string is
returned. -/
theorem Header_of_len_gt (caseTable : Char → Char) (T : String) (h : 70 < len T) :
    (70 - len T).tdiv 2 + (70 - len T).tmod 2 < 0
      ∧ Header caseTable T = Except.error Panic.negativeRepeatCount := by
  have hneg := tdiv_add_tmod_two_neg (70 - len T) (by omega)
  refine ⟨hneg, ?_⟩
  simp only [Header]
  rw [Repeat_of_neg _ _ hneg]
  rfl

/-- Witness of the amended claim C2, at a text of 71 bytes. -/
theorem Header_of_len_gt_witness :
    70 < len text71 ∧
      ((70 - len text71).tdiv 2 + (70 - len text71).tmod 2 < 0
        ∧ Header id text71 = Except.error Panic.negativeRepeatCount) :=
  ⟨by decide, Header_of_len_gt id text71 (by decide)⟩

/-! ## No operation signals failure -/

/-- Counterexample to claim C3: `Header` returns no string on a text of 71
bytes, `ProcessStart` none on a text of 69 bytes and `ProcessEnd` none on a
text of 64 bytes; each call panics in `strings.Repeat`. -/
theorem padded_operations_fail :
    (len text71 = 71 ∧ ¬ ∃ r, Header id text71 = Except.ok r) ∧
      (len text69 = 69 ∧ ¬ ∃ r, ProcessStart id text69 = Except.ok r) ∧
      (len text64 = 64 ∧ ¬ ∃ r, ProcessEnd id text64 = Except.ok r) := by
  have e1 : Header id text71 = Except.error Panic.negativeRepeatCount := rfl
  have e2 : ProcessStart id text69 = Except.error Panic.negativeRepeatCount := rfl
  have e3 : ProcessEnd id text64 = Except.error Panic.negativeRepeatCount := rfl
  refine ⟨⟨by decide, ?_⟩, ⟨by decide, ?_⟩, ⟨by decide, ?_⟩⟩
  · rintro ⟨r, h⟩
    rw [e1] at h
    cases h
  · rintro ⟨r, h⟩
    rw [e2] at h
    cases h
  · rintro ⟨r, h⟩
    rw [e3] at h
    cases h

/-- Claim C3, amended: `SubTask`, `Bullet`, `Warning`, `Error`, `SubTaskSuccess`
and `SubTaskFail` return a string on every input; `Header` returns a string on
every text of at most 70 bytes, `ProcessStart` on every text of at most 68 bytes
and `ProcessEnd` on every text of at most 63 bytes. -/
theorem operations_return (caseTable : Char → Char) (WrapString : String → Nat → String)
    (T heading : String) (v : BulletArg) :
    (len T ≤ 70 → ∃ r, Header caseTable T = Except.ok r) ∧
      (len T ≤ 68 → ∃ r, ProcessStart caseTable T = Except.ok r) ∧
      (len T ≤ 63 → ∃ r, ProcessEnd caseTable T = Except.ok r) ∧
      (∃ r, SubTask caseTable T = r) ∧
      (∃ r, Bullet v = r) ∧
      (∃ r, Warning WrapString T = r) ∧
      (∃ r, Error caseTable WrapString heading T = r) ∧
      (∃ r, SubTaskSuccess = r) ∧
      (∃ r, SubTaskFail = r) := by
  refine ⟨fun h => ⟨_, Header_ok caseTable T h⟩, fun h => ⟨_, ProcessStart_ok caseTable T h⟩,
    fun h => ⟨_, ProcessEnd_ok caseTable T ?_⟩, ⟨_, rfl⟩, ⟨_, rfl⟩, ⟨_, rfl⟩, ⟨_, rfl⟩,
    ⟨_, rfl⟩, ⟨_, rfl⟩⟩
  have e := len_reserved_end T
  omega

/-- Witness of the amended claim C3, at the empty text, which all three padded
operations accept. -/
theorem operations_return_witness :
    len "" ≤ 70 ∧ len "" ≤ 68 ∧ len "" ≤ 63 ∧
      (∃ r, Header id "" = Except.ok r) ∧
      (∃ r, ProcessStart id "" = Except.ok r) ∧
      (∃ r, ProcessEnd id "" = Except.ok r) :=
  have h := operations_return id (fun s _ => s) "" "" (BulletArg.text "")
  ⟨by decide, by decide, by decide, h.1 (by decide), h.2.1 (by decide), h.2.2.1 (by decide)⟩

/-! ## Bullet -/

/-- Claim C4: on a non-empty slice `Bullet` returns `"+> "`, the first element
and a newline, whatever the other elements are; it is `Bullet` of the slice
that holds the first element alone. -/
theorem Bullet_slice_first (s : List String) (h : s ≠ []) :
    Bullet (BulletArg.slice s) = "+> " ++ s.head h ++ "\n" ∧
      Bullet (BulletArg.slice s) = Bullet (BulletArg.slice [s.head h]) := by
  cases s with
  | nil => exact absurd rfl h
  | cons x rest => exact ⟨rfl, rfl⟩

/-- Witness of claim C4: `Bullet ["a", "b", "c"]` is `"+> a\n"`. -/
theorem Bullet_slice_first_witness :
    ["a", "b", "c"] ≠ [] ∧ Bullet (BulletArg.slice ["a", "b", "c"]) = "+> a\n" ∧
      Bullet (BulletArg.slice ["a", "b", "c"]) = Bullet (BulletArg.slice ["a"]) :=
  ⟨by decide, (Bullet_slice_first ["a", "b", "c"] (by decide)).1,
    (Bullet_slice_first ["a", "b", "c"] (by decide)).2⟩

/-- Claim C5, evaluated on the code: `Bullet ["we", "are", "many", "bullets"]` is
the single line `"+> we"`, not the four lines of the comment on the function;
the loop returns in its first iteration. -/
theorem Bullet_many_is_first_only :
    Bullet (BulletArg.slice ["we", "are", "many", "bullets"]) = "+> we\n" ∧
      bulletLines ["we", "are", "many", "bullets"] = "+> we\n+> are\n+> many\n+> bullets\n" ∧
      Bullet (BulletArg.slice ["we", "are", "many", "bullets"])
        ≠ bulletLines ["we", "are", "many", "bullets"] := by
  refine ⟨rfl, by decide, by decide⟩

/-! ## ProcessStart and ProcessEnd -/

/-- Claim C6: for a text of at most 68 bytes, `ProcessStart` returns (between
two newlines) the line made of the upper-cased text, a blank, a fill, a blank
and `"=>"`, where the fill is `70 - (len T + len "=>") = 68 - len T` colons. -/
theorem ProcessStart_of_len_le (caseTable : Char → Char) (T : String) (h : len T ≤ 68) :
    ProcessStart caseTable T = Except.ok
        ("\n" ++ (ToUpper caseTable T ++ " " ++ run ':' (70 - (len T + len "=>")).toNat
          ++ " " ++ "=>") ++ "\n")
      ∧ 70 - (len T + len "=>") = 68 - len T
      ∧ 0 ≤ 68 - len T := by
  have e : len "=>" = 2 := by decide
  refine ⟨?_, by omega, by omega⟩
  rw [ProcessStart_ok caseTable T h, len_append, String.append_assoc _ " " "=>"]
  rfl

/-- Witness of claim C6: `ProcessStart "i am a process"` has a fill of 54
colons. -/
theorem ProcessStart_of_len_le_witness :
    len "i am a process" ≤ 68 ∧
      ProcessStart id "i am a process"
        = Except.ok ("\n" ++ ("I AM A PROCESS" ++ " " ++ run ':' 54 ++ " " ++ "=>") ++ "\n") ∧
      70 - (len "i am a process" + len "=>") = 54 :=
  ⟨by decide, (ProcessStart_of_len_le id "i am a process" (by decide)).1.trans rfl,
    by decide⟩

/-- Counterexample to claim C7: the string that `ProcessStart "i am a process"`
returns begins with a newline, not with `"I AM A PROCESS "`, and ends with a
newline, not with `" =>"`. -/
theorem ProcessStart_example_newlines :
    ProcessStart id "i am a process" = Except.ok processStartExample ∧
      startsWith processStartExample (ToUpper id "i am a process" ++ " ") = false ∧
      ToUpper id "i am a process" ++ " " = "I AM A PROCESS " ∧
      endsWith processStartExample " =>" = false ∧
      startsWith processStartExample "\n" = true ∧
      endsWith processStartExample "\n" = true := by
  refine ⟨rfl, by decide, by decide, by decide, by decide, by decide⟩

/-- Claim C7, amended: for a text of at most 68 bytes, `ProcessStart` returns a
newline, a line and a newline, where the line begins with the upper-cased text
followed by a blank and ends with `" =>"`. -/
theorem ProcessStart_line (caseTable : Char → Char) (T : String) (h : len T ≤ 68) :
    ∃ line, ProcessStart caseTable T = Except.ok ("\n" ++ line ++ "\n") ∧
      startsWith line (ToUpper caseTable T ++ " ") = true ∧
      endsWith line " =>" = true := by
  refine ⟨_, ProcessStart_ok caseTable T h, ?_, endsWith_append _ _⟩
  rw [String.append_assoc]
  exact startsWith_append _ _

/-- Witness of the amended claim C7: the line of `ProcessStart "i am a process"`
begins with `"I AM A PROCESS "` and ends with `" =>"`. -/
theorem ProcessStart_line_witness :
    len "i am a process" ≤ 68 ∧
      ∃ line, ProcessStart id "i am a process" = Except.ok ("\n" ++ line ++ "\n") ∧
        startsWith line ("I AM A PROCESS" ++ " ") = true ∧
        endsWith line " =>" = true :=
  ⟨by decide, ProcessStart_line id "i am a process" (by decide)⟩

/-- Claim C8: when the fill count `70 - len ("<=" + T + "[√]")` is not negative,
`ProcessEnd` returns (between two newlines) the line made of `"<= "`, a fill of
that many colons, a blank, the upper-cased text and `" [√]"`. -/
theorem ProcessEnd_of_fill_nonneg (caseTable : Char → Char) (T : String)
    (h : 0 ≤ 70 - len ("<=" ++ T ++ "[√]")) :
    ProcessEnd caseTable T = Except.ok
      ("\n" ++ ("<= " ++ run ':' (70 - len ("<=" ++ T ++ "[√]")).toNat ++ " "
        ++ ToUpper caseTable T ++ " [√]") ++ "\n") :=
  ProcessEnd_ok caseTable T h

/-- Witness of claim C8: `ProcessEnd "i am a process"` measures 21 reserved
bytes and has a fill of 49 colons. -/
theorem ProcessEnd_of_fill_nonneg_witness :
    0 ≤ 70 - len ("<=" ++ "i am a process" ++ "[√]") ∧
      len ("<=" ++ "i am a process" ++ "[√]") = 21 ∧
      ProcessEnd id "i am a process"
        = Except.ok ("\n" ++ ("<= " ++ run ':' 49 ++ " " ++ "I AM A PROCESS" ++ " [√]") ++ "\n") :=
  ⟨by decide, by decide, (ProcessEnd_of_fill_nonneg id "i am a process" (by decide)).trans rfl⟩

/-! ## SubTask -/

/-- Claim C10: for every text, `SubTask` returns a newline, nine colons, a
blank, the upper-cased text and a newline; the fill does not depend on the
text. -/
theorem SubTask_eq (caseTable : Char → Char) (T : String) :
    SubTask caseTable T = "\n" ++ run ':' 9 ++ " " ++ ToUpper caseTable T ++ "\n" := by
  rfl

/-! ## Occurrences of the text in a header -/

theorem data_run (c : Char) (n : Nat) : (run c n).data = List.replicate n c := rfl

theorem header_data (l r : Nat) (U : String) :
    ("\n" ++ (run ':' l ++ " " ++ U ++ " " ++ run ':' r) ++ "\n").data
      = ('\n' :: (List.replicate l ':' ++ [' '])) ++ (U.data ++ (' ' :: (List.replicate r ':' ++ ['\n']))) := by
  simp only [String.data_append, data_run]
  simp only [List.append_assoc, List.cons_append, List.nil_append, List.singleton_append]

theorem header_frame_left (l : Nat) :
    ∀ c ∈ '\n' :: (List.replicate l ':' ++ [' ']), isFrame c = true := by
  intro c hc
  simp only [List.mem_cons, List.mem_append, List.mem_replicate, List.mem_singleton,
    List.not_mem_nil, or_false] at hc
  rcases hc with rfl | ⟨_, rfl⟩ | rfl <;> rfl

theorem header_frame_right (r : Nat) :
    ∀ c ∈ ' ' :: (List.replicate r ':' ++ ['\n']), isFrame c = true := by
  intro c hc
  simp only [List.mem_cons, List.mem_append, List.mem_replicate, List.mem_singleton,
    List.not_mem_nil, or_false] at hc
  rcases hc with rfl | ⟨_, rfl⟩ | rfl <;> rfl

/-- Counterexample to claim C9: the text `":"` is its own upper-cased form and
occurs 70 times in `Header ":"`, once as the text and 69 times in the fill. -/
theorem Header_colon_occurrences :
    len ":" ≤ 70 ∧ ToUpper id ":" = ":" ∧ Header id ":" = Except.ok headerColon ∧
      occurrences (ToUpper id ":") headerColon = 70 := by
  refine ⟨by decide, by decide, rfl, by decide⟩

/-- Claim C9, amended: for a text of at most 70 bytes, `Header` returns a string
that contains the upper-cased text as a substring; it contains exactly one
occurrence of it when the upper-cased text has a character other than the
colon, the blank and the newline. -/
theorem Header_occurrences (caseTable : Char → Char) (T : String) (h : len T ≤ 70) :
    ∃ r, Header caseTable T = Except.ok r ∧
      1 ≤ occurrences (ToUpper caseTable T) r ∧
      ((∃ c ∈ (ToUpper caseTable T).data, c ≠ ':' ∧ c ≠ ' ' ∧ c ≠ '\n') →
        occurrences (ToUpper caseTable T) r = 1) := by
  refine ⟨_, Header_ok caseTable T h, ?_, ?_⟩
  · unfold occurrences
    rw [header_data]
    exact length_positions_pos _ _ _
  · rintro ⟨c, hc, h1, h2, h3⟩
    unfold occurrences
    rw [header_data]
    refine length_positions_eq_one _ _ _ (header_frame_left _) (header_frame_right _) ⟨c, hc, ?_⟩
    simp [isFrame, h1, h2, h3]

/-- Witness of the amended claim C9: `Header "i am a header"` contains exactly
one occurrence of `"I AM A HEADER"`. -/
theorem Header_occurrences_witness :
    len "i am a header" ≤ 70 ∧ ToUpper id "i am a header" = "I AM A HEADER" ∧
      ∃ r, Header id "i am a header" = Except.ok r ∧ occurrences "I AM A HEADER" r = 1 := by
  obtain ⟨r, hr, _, h1⟩ := Header_occurrences id "i am a header" (by decide)
  exact ⟨by decide, by decide, r, hr, h1 ⟨'I', by decide, by decide, by decide, by decide⟩⟩

/-! ## SubTaskSuccess -/

/-- Counterexample to claim C11: the result of `SubTaskSuccess` is not the
string of nine `'<'` followed by `" [√] SUCCESS"`; it begins and ends with a
newline. -/
theorem SubTaskSuccess_ne_bare_line :
    SubTaskSuccess ≠ run '<' 9 ++ " [√] SUCCESS" ∧
      startsWith SubTaskSuccess "\n" = true ∧ endsWith SubTaskSuccess "\n" = true := by
  refine ⟨by decide, by decide, by decide⟩

/-- Claim C11, amended: `SubTaskSuccess` takes no input and its result is a
newline, nine `'<'` followed by `" [√] SUCCESS"`, and a newline. -/
theorem SubTaskSuccess_eq :
    SubTaskSuccess = "\n" ++ (run '<' 9 ++ " [√] SUCCESS") ++ "\n" := by
  decide

/-! ## Warning and Error -/

/-- Claim C12: for every body, `Warning` returns a newline, the banner line (29
dashes, two blanks, `WARNING`, two blanks, 29 dashes), a newline, the body
wrapped at 70 columns and a newline; the banner does not depend on the body.
Where the wrap leaves the body as it is, the banner line is followed by the
body. -/
theorem Warning_eq (WrapString : String → Nat → String) (body : String) :
    Warning WrapString body
        = "\n" ++ (run '-' 29 ++ "  " ++ "WARNING" ++ "  " ++ run '-' 29) ++ "\n"
          ++ WrapString body 70 ++ "\n" ∧
      (WrapString body 70 = body →
        Warning WrapString body = "\n" ++ warningBanner ++ "\n" ++ body ++ "\n") := by
  have e : Warning WrapString body
      = "\n" ++ (run '-' 29 ++ "  " ++ "WARNING" ++ "  " ++ run '-' 29) ++ "\n"
        ++ WrapString body 70 ++ "\n" := rfl
  refine ⟨e, fun h => ?_⟩
  rw [e, h]
  rfl

set_option maxRecDepth 20000 in
/-- Witness of claim C12: `Warning "You just bought Hot Pockets!"` is the banner
line followed by the line `"You just bought Hot Pockets!"`, which the wrap
leaves as it is. -/
theorem Warning_eq_witness :
    Wordwrap.WrapString "You just bought Hot Pockets!" 70 = "You just bought Hot Pockets!" ∧
      Warning Wordwrap.WrapString "You just bought Hot Pockets!"
        = "\n-----------------------------  WARNING  -----------------------------\n"
          ++ "You just bought Hot Pockets!" ++ "\n" :=
  ⟨by decide,
    ((Warning_eq Wordwrap.WrapString "You just bought Hot Pockets!").2 (by decide)).trans
      (by decide)⟩

/-- Claim C14: for every heading and body, `Error` returns a newline, the line
`"! "`, upper-cased heading, `" !"`, a newline, an empty line, the body wrapped
at 70 columns and a newline; the wrapped body is the one that `Warning` emits
for the same body. -/
theorem Error_eq (caseTable : Char → Char) (WrapString : String → Nat → String)
    (heading body : String) :
    ∃ wrapped,
      Error caseTable WrapString heading body
        = "\n" ++ ("! " ++ ToUpper caseTable heading ++ " !") ++ "\n" ++ "" ++ "\n"
          ++ wrapped ++ "\n" ∧
      wrapped = WrapString body 70 ∧
      Warning WrapString body = "\n" ++ warningBanner ++ "\n" ++ wrapped ++ "\n" := by
  refine ⟨WrapString body 70, ?_, rfl, rfl⟩
  apply String.ext
  simp [Error, String.data_append]

set_option maxRecDepth 20000 in
/-- Witness of claim C14, the example of the comment on `Error`:
`Error "nuclear launch detected" "All your base are belong to us"` is the line
`"! NUCLEAR LAUNCH DETECTED !"`, an empty line and the body, which the wrap
leaves as it is. -/
theorem Error_eq_witness :
    Wordwrap.WrapString "All your base are belong to us" 70 = "All your base are belong to us" ∧
      Error id Wordwrap.WrapString "nuclear launch detected" "All your base are belong to us"
        = "\n! NUCLEAR LAUNCH DETECTED !\n\nAll your base are belong to us\n" := by
  obtain ⟨wrapped, h1, h2, _⟩ :=
    Error_eq id Wordwrap.WrapString "nuclear launch detected" "All your base are belong to us"
  have hw : Wordwrap.WrapString "All your base are belong to us" 70
      = "All your base are belong to us" := by decide
  rw [hw] at h2
  subst h2
  exact ⟨hw, h1.trans (by decide)⟩

/-! ## Bullet on a single value and on the empty slice -/

/-- Claim C15: on a single text value `Bullet` returns `"+> "`, the value and
a newline. -/
theorem Bullet_text (v : String) : Bullet (BulletArg.text v) = "+> " ++ v ++ "\n" := by
  rfl

/-- Claim C20: on the empty slice the loop of `Bullet` runs no iteration, the
call falls through to the single-value branch and returns `"+> []\n"`, the
default rendering of an empty slice; the result is not the empty string. -/
theorem Bullet_empty_slice :
    bulletLoop [] = none ∧
      formatV (BulletArg.slice []) = "[]" ∧
      Bullet (BulletArg.slice []) = "+> " ++ formatV (BulletArg.slice []) ++ "\n" ∧
      Bullet (BulletArg.slice []) = "+> []\n" ∧
      Bullet (BulletArg.slice []) ≠ "" := by
  refine ⟨rfl, by decide, rfl, by decide, by decide⟩

/-! ## The documented examples -/

/-- Claim C16, evaluated on the code: the line of `ProcessEnd "i am a process"`
is `"<= "`, 49 colons, a blank and `"I AM A PROCESS [√]"`; the comment on the
function documents `"<= "`, 44 colons, a blank and `"END I AM A PROCESS"`. -/
theorem ProcessEnd_example_not_documented :
    ProcessEnd id "i am a process"
        = Except.ok ("\n" ++ ("<= " ++ run ':' 49 ++ " " ++ "I AM A PROCESS [√]") ++ "\n") ∧
      processEndDocumented = "<= " ++ run ':' 44 ++ " " ++ "END I AM A PROCESS" ∧
      "<= " ++ run ':' 49 ++ " " ++ "I AM A PROCESS [√]" ≠ processEndDocumented ∧
      ProcessEnd id "i am a process" ≠ Except.ok ("\n" ++ processEndDocumented ++ "\n") := by
  have e : ProcessEnd id "i am a process"
      = Except.ok ("\n" ++ ("<= " ++ run ':' 49 ++ " " ++ "I AM A PROCESS [√]") ++ "\n") := rfl
  refine ⟨e, by decide, by decide, ?_⟩
  rw [e]
  intro h
  have h2 := Except.ok.inj h
  revert h2
  decide

/-- Claim C17, evaluated on the code: the line of `Header "i am a header"` has
29 colons on the left and 28 on the right; the comment on the function
documents 26 and 25. -/
theorem Header_example_not_documented :
    Header id "i am a header"
        = Except.ok ("\n" ++ (run ':' 29 ++ " " ++ "I AM A HEADER" ++ " " ++ run ':' 28) ++ "\n") ∧
      headerDocumented = run ':' 26 ++ " " ++ "I AM A HEADER" ++ " " ++ run ':' 25 ∧
      run ':' 29 ++ " " ++ "I AM A HEADER" ++ " " ++ run ':' 28 ≠ headerDocumented ∧
      Header id "i am a header" ≠ Except.ok ("\n" ++ headerDocumented ++ "\n") := by
  have e : Header id "i am a header"
      = Except.ok ("\n" ++ (run ':' 29 ++ " " ++ "I AM A HEADER" ++ " " ++ run ':' 28) ++ "\n") :=
    rfl
  refine ⟨e, by decide, by decide, ?_⟩
  rw [e]
  intro h
  have h2 := Except.ok.inj h
  revert h2
  decide

/-! ## When the padded operations fail -/

theorem Header_panics (caseTable : Char → Char) (T : String) (h : 70 < len T) :
    Header caseTable T = Except.error Panic.negativeRepeatCount := by
  have hneg := tdiv_add_tmod_two_neg (70 - len T) (by omega)
  simp only [Header]
  rw [Repeat_of_neg _ _ hneg]
  rfl

theorem tdiv_add_tmod_two_nonneg (n : Int) (h : 0 ≤ n) : 0 ≤ n.tdiv 2 + n.tmod 2 := by
  rw [tdiv_two_of_nonneg n h, tmod_two_of_nonneg n h]
  omega

theorem fails_iff_of (x : Except Panic String) (P : Prop)
    (h1 : P → x = Except.error Panic.negativeRepeatCount) (h2 : ¬ P → ∃ r, x = Except.ok r) :
    (x = Except.error Panic.negativeRepeatCount ↔ P) ∧ ((∃ r, x = Except.ok r) ↔ ¬ P) := by
  constructor
  · constructor
    · intro he
      by_contra hP
      obtain ⟨r, hr⟩ := h2 hP
      rw [hr] at he
      cases he
    · exact h1
  · constructor
    · rintro ⟨r, hr⟩ hP
      rw [h1 hP] at hr
      cases hr
    · exact h2

/-- Claim C18: each padded operation fails exactly when its text is too long,
and returns a string otherwise; the failure is the panic of `strings.Repeat`
on a negative fill count.  `Header` fails if and only if `len T > 70`,
`ProcessStart` if and only if `len T > 68` and `ProcessEnd` if and only if
`len T > 63`, the reserved string `"<=" + T + "[√]"` having `len T + 7` bytes
because `'√'` has 3 bytes. -/
theorem padded_fail_iff (caseTable : Char → Char) (T : String) :
    (((70 - len T).tdiv 2 + (70 - len T).tmod 2 < 0 ↔ 70 < len T) ∧
      (Header caseTable T = Except.error Panic.negativeRepeatCount ↔ 70 < len T) ∧
      ((∃ r, Header caseTable T = Except.ok r) ↔ ¬ 70 < len T)) ∧
    ((70 - len (T ++ "=>") < 0 ↔ 68 < len T) ∧
      (ProcessStart caseTable T = Except.error Panic.negativeRepeatCount ↔ 68 < len T) ∧
      ((∃ r, ProcessStart caseTable T = Except.ok r) ↔ ¬ 68 < len T)) ∧
    ((70 - len ("<=" ++ T ++ "[√]") < 0 ↔ 63 < len T) ∧
      (ProcessEnd caseTable T = Except.error Panic.negativeRepeatCount ↔ 63 < len T) ∧
      ((∃ r, ProcessEnd caseTable T = Except.ok r) ↔ ¬ 63 < len T)) ∧
    len "√" = 3 ∧ len ("<=" ++ T ++ "[√]") = len T + 7 := by
  have e2 : len (T ++ "=>") = len T + 2 := by rw [len_append]; rfl
  have e7 := len_reserved_end T
  refine ⟨⟨?_, ?_⟩, ⟨by omega, ?_⟩, ⟨by omega, ?_⟩, by decide, e7⟩
  · constructor
    · intro h
      by_contra hc
      have := tdiv_add_tmod_two_nonneg (70 - len T) (by omega)
      omega
    · intro h
      exact tdiv_add_tmod_two_neg (70 - len T) (by omega)
  · exact fails_iff_of _ _ (Header_panics caseTable T)
      (fun h => ⟨_, Header_ok caseTable T (by omega)⟩)
  · exact fails_iff_of _ _ (ProcessStart_panics caseTable T)
      (fun h => ⟨_, ProcessStart_ok caseTable T (by omega)⟩)
  · exact fails_iff_of _ _ (ProcessEnd_panics caseTable T)
      (fun h => ⟨_, ProcessEnd_ok caseTable T (by omega)⟩)

/-! ## The width of the padded lines -/

theorem utf8Size_of_ascii (c : Char) (h : c.toNat ≤ 0x7F) : c.utf8Size = 1 := by
  have hv : c.val ≤ UInt32.ofNatCore 0x7F (by decide) := by
    rw [UInt32.le_def]
    exact h
  unfold Char.utf8Size
  exact if_pos hv

theorem utf8Len_of_ascii (l : List Char) (h : ∀ c ∈ l, c.toNat ≤ 0x7F) :
    String.utf8Len l = l.length := by
  induction l with
  | nil => rfl
  | cons a l ih =>
    rw [String.utf8Len_cons, List.length_cons, ih (fun c hc => h c (List.mem_cons_of_mem a hc)),
      utf8Size_of_ascii a (h a (List.mem_cons_self a l))]

theorem len_of_ascii (s : String) (h : ∀ c ∈ s.data, c.toNat ≤ 0x7F) :
    len s = (s.length : Nat) := by
  unfold len
  congr 1
  exact utf8Len_of_ascii s.data h

theorem unicodeToUpper_ascii (caseTable : Char → Char) (c : Char) (h : c.toNat ≤ 0x7F) :
    (unicodeToUpper caseTable c).toNat ≤ 0x7F := by
  unfold unicodeToUpper
  rw [if_pos h]
  split
  · rename_i hc
    have e : 'a'.toNat = 97 := rfl
    have e2 : 'A'.toNat = 65 := rfl
    rw [e] at hc
    rw [e, e2]
    have hz : 'z'.toNat = 122 := rfl
    rw [hz] at hc
    have hn : (c.toNat - (97 - 65)).isValidChar := by
      left
      omega
    rw [Char.ofNat, dif_pos hn]
    show c.toNat - (97 - 65) ≤ 0x7F
    omega
  · exact h

theorem ToUpper_ascii (caseTable : Char → Char) (s : String) (h : ∀ c ∈ s.data, c.toNat ≤ 0x7F) :
    ∀ c ∈ (ToUpper caseTable s).data, c.toNat ≤ 0x7F := by
  intro c hc
  unfold ToUpper at hc
  obtain ⟨a, ha, rfl⟩ := List.mem_map.1 hc
  exact unicodeToUpper_ascii caseTable a (h a ha)

theorem length_ToUpper (caseTable : Char → Char) (s : String) :
    (ToUpper caseTable s).length = s.length := by
  show (s.data.map (unicodeToUpper caseTable)).length = s.data.length
  exact List.length_map _ _

theorem length_run (c : Char) (n : Nat) : (run c n).length = n := by
  show (List.replicate n c).length = n
  exact List.length_replicate n c

theorem len_run_colon (n : Nat) : len (run ':' n) = (n : Nat) := by
  rw [len_of_ascii (run ':' n), length_run]
  intro c hc
  rw [data_run] at hc
  rw [List.eq_of_mem_replicate hc]
  decide

/-- Claim C19: for an ASCII text short enough to be padded, the line between
the leading and the trailing newline has a length that does not depend on the
text and is not 70: 72 characters for `Header` (`len T ≤ 70`) and for
`ProcessStart` (`len T ≤ 68`), 71 characters and 73 bytes for `ProcessEnd`
(`len T ≤ 63`). -/
theorem padded_line_length (caseTable : Char → Char) (T : String)
    (hascii : ∀ c ∈ T.data, c.toNat ≤ 0x7F) :
    (len T ≤ 70 →
      ∃ line, Header caseTable T = Except.ok ("\n" ++ line ++ "\n") ∧ line.length = 72) ∧
    (len T ≤ 68 →
      ∃ line, ProcessStart caseTable T = Except.ok ("\n" ++ line ++ "\n") ∧ line.length = 72) ∧
    (len T ≤ 63 →
      ∃ line, ProcessEnd caseTable T = Except.ok ("\n" ++ line ++ "\n") ∧ line.length = 71 ∧
        len line = 73) := by
  have hL := len_of_ascii T hascii
  have hU := length_ToUpper caseTable T
  have hUb := len_of_ascii (ToUpper caseTable T) (ToUpper_ascii caseTable T hascii)
  have e2 : len (T ++ "=>") = len T + 2 := by rw [len_append]; rfl
  have e7 := len_reserved_end T
  have s1 : " ".length = 1 := rfl
  have s2 : " =>".length = 3 := rfl
  have s3 : "<= ".length = 3 := rfl
  have s4 : " [√]".length = 4 := rfl
  have b1 : len " " = 1 := rfl
  have b3 : len "<= " = 3 := rfl
  have b4 : len " [√]" = 6 := rfl
  have b2 : len "<=" = 2 := rfl
  have b5 : len "[√]" = 5 := rfl
  refine ⟨fun h => ⟨_, Header_ok caseTable T h, ?_⟩,
    fun h => ⟨_, ProcessStart_ok caseTable T h, ?_⟩,
    fun h => ⟨_, ProcessEnd_ok caseTable T (by omega), ?_, ?_⟩⟩
  · simp only [String.length_append, length_run, s1, hU]
    omega
  · simp only [String.length_append, length_run, s1, s2, hU]
    omega
  · simp only [String.length_append, length_run, s1, s3, s4, hU]
    omega
  · simp only [len_append, len_run_colon, b1, b3, b4, hUb, hU]
    omega

/-- Witness of claim C19, at the ASCII text `"i am a process"`, which all three
padded operations accept. -/
theorem padded_line_length_witness :
    (∀ c ∈ "i am a process".data, c.toNat ≤ 0x7F) ∧ len "i am a process" ≤ 63 ∧
      (∃ line, Header id "i am a process" = Except.ok ("\n" ++ line ++ "\n") ∧
        line.length = 72) ∧
      (∃ line, ProcessStart id "i am a process" = Except.ok ("\n" ++ line ++ "\n") ∧
        line.length = 72) ∧
      (∃ line, ProcessEnd id "i am a process" = Except.ok ("\n" ++ line ++ "\n") ∧
        line.length = 71 ∧ len line = 73) :=
  have h := padded_line_length id "i am a process" (by decide)
  ⟨by decide, by decide, h.1 (by decide), h.2.1 (by decide), h.2.2 (by decide)⟩

/-! ## A single long word in a warning -/

theorem foldl_wrapStep_word (lim : Nat) (l w : List Char)
    (h : ∀ c ∈ l, unicodeIsSpace c = false ∧ c ≠ '\n') :
    l.foldl (wrapStep lim) { buf := [], current := 0, spaceBuf := [], wordBuf := w }
      = { buf := [], current := 0, spaceBuf := [], wordBuf := w ++ l } := by
  induction l generalizing w with
  | nil => rw [List.foldl_nil, List.append_nil]
  | cons a l ih =>
    have ha := h a (List.mem_cons_self a l)
    have hstep : wrapStep lim { buf := [], current := 0, spaceBuf := [], wordBuf := w } a
        = { buf := [], current := 0, spaceBuf := [], wordBuf := w ++ [a] } := by
      unfold wrapStep
      rw [if_neg ha.2, ha.1]
      simp only [Bool.false_eq_true, if_false, List.length_nil]
      rw [if_neg (by omega)]
    rw [List.foldl_cons, hstep, ih (w ++ [a]) (fun c hc => h c (List.mem_cons_of_mem a hc))]
    simp

theorem WrapString_word (lim : Nat) (body : String)
    (h : ∀ c ∈ body.data, unicodeIsSpace c = false ∧ c ≠ '\n') :
    Wordwrap.WrapString body lim = body := by
  unfold Wordwrap.WrapString
  rw [foldl_wrapStep_word lim body.data [] h]
  apply String.ext
  show wrapFinish lim { buf := [], current := 0, spaceBuf := [], wordBuf := [] ++ body.data }
    = body.data
  unfold wrapFinish
  simp

/-- Claim C13: for a body that is a single word (no whitespace, no line break)
of more than 70 bytes, the wrap returns the body itself, neither truncated nor
broken, and `Warning` returns the banner line followed by the body on one
line, which is longer than 70 and holds no line break. -/
theorem Warning_single_word (body : String)
    (hword : ∀ c ∈ body.data, unicodeIsSpace c = false ∧ c ≠ '\n') (hlen : 70 < len body) :
    Wordwrap.WrapString body 70 = body ∧
      Warning Wordwrap.WrapString body = "\n" ++ warningBanner ++ "\n" ++ body ++ "\n" ∧
      70 < len (Wordwrap.WrapString body 70) ∧
      '\n' ∉ (Wordwrap.WrapString body 70).data := by
  have e := WrapString_word 70 body hword
  refine ⟨e, ?_, by rw [e]; exact hlen, by rw [e]; exact fun hc => (hword _ hc).2 rfl⟩
  unfold Warning
  rw [e]
  rfl

/-- Witness of claim C13, at a word of 71 letters. -/
theorem Warning_single_word_witness :
    (∀ c ∈ text71.data, unicodeIsSpace c = false ∧ c ≠ '\n') ∧ 70 < len text71 ∧
      Warning Wordwrap.WrapString text71 = "\n" ++ warningBanner ++ "\n" ++ text71 ++ "\n" :=
  ⟨by decide, by decide, (Warning_single_word text71 (by decide) (by decide)).2.1⟩

end Stylish
